import Mathlib

/-
Verification of the development web server `serve.py` of zig-webgpu-platform.

The Python program is shallowly embedded: pure string manipulation is
translated to Lean functions on `String`/`List Char`; the effectful `main`
is translated to a function from an abstract `World` (the observable state
of the filesystem and of the external commands the program shells out to)
to a trace of externally visible events plus the final contents of the
certificate files.  External commands (`ip -4 addr show`, `openssl`) are
inputs of the `World`; their failure is modelled by `Option`.
-/

namespace ServePy

/-- Python `str.split()` with no argument: split on runs of whitespace,
discarding empty pieces. -/
def pySplitWs (s : String) : List String :=
  (s.split (fun c => c.isWhitespace)).filter (fun t => t ≠ "")

/-- Python `str.splitlines()`, modelled as splitting on a newline character.
(Python also splits on other line terminators and drops a trailing empty
line; neither difference matters here, since an empty line never starts
with `inet `.) -/
def pySplitLines (s : String) : List String :=
  s.splitOn "\n"

/-- `s.split(sep, 1)[0]`: everything before the first occurrence of `sep`. -/
def stripAfter (sep : String) (s : String) : String :=
  ((s.splitOn sep).headD "")

/-- Digits of a Python integer literal after the first digit: decimal
digits, with single underscores allowed between digits. -/
def pyDigitsAux : List Char → Nat → Option Nat
  | [], acc => some acc
  | '_' :: c :: rest, acc =>
      if c.isDigit then pyDigitsAux rest (acc * 10 + (c.toNat - 48)) else none
  | ['_'], _ => none
  | c :: rest, acc =>
      if c.isDigit then pyDigitsAux rest (acc * 10 + (c.toNat - 48)) else none

/-- A nonempty run of decimal digits (underscore separators allowed), as in
Python `int`. -/
def pyDigits : List Char → Option Nat
  | [] => none
  | c :: rest => if c.isDigit then pyDigitsAux rest (c.toNat - 48) else none

/-- Python `str.strip()` with no argument on a character list: drop
leading and trailing whitespace. -/
def stripChars (l : List Char) : List Char :=
  ((l.dropWhile (fun c => c.isWhitespace)).reverse.dropWhile
    (fun c => c.isWhitespace)).reverse

/-- Python `int(s)` on a decimal string: surrounding whitespace stripped,
optional sign, nonempty digit run.  `none` models `ValueError`. -/
def pyInt (s : String) : Option Int :=
  match stripChars s.data with
  | '+' :: rest => (pyDigits rest).map Int.ofNat
  | '-' :: rest => (pyDigits rest).map (fun n => -(n : Int))
  | rest => (pyDigits rest).map Int.ofNat

end ServePy

namespace ServePy

/-! ### MIME types (serve.py lines 32-40) -/

/-- The handler's `extensions_map` (serve.py lines 35-40): the inherited
platform mapping `base`, updated so that `.wasm`, `.js` and `.mjs` map to
the two WebGPU-required types.  In the Python dict literal
`{**base, ".wasm": ..., ".js": ..., ".mjs": ...}` the later entries win,
so the three overrides shadow any `base` entry for the same key. -/
def extensions_map (base : String → Option String) (ext : String) : Option String :=
  if ext = ".wasm" then some "application/wasm"
  else if ext = ".js" then some "application/javascript"
  else if ext = ".mjs" then some "application/javascript"
  else base ext

/-- The extension of a path: the final `.`-suffix of its last component,
computed on the reversed character list. -/
def extRev : List Char → List Char → String
  | [], _ => ""
  | c :: rest, acc =>
      if c = '.' then String.mk ('.' :: acc)
      else if c = '/' then ""
      else extRev rest (c :: acc)

/-- Extension of a path (`.wasm` for `a/b.wasm`, `""` when the last
component has no dot). -/
def pathExt (p : String) : String := extRev p.data.reverse []

/-- Modelled from the spec: the MIME inference of the underlying static
file handler (library code, not under src/).  Per the spec, the handler
consults `extensions_map` for the requested path's extension, and these
entries take precedence over any platform default mapping, modelled here
as an arbitrary function `platformGuess`. -/
def guess_type (base : String → Option String) (platformGuess : String → String)
    (path : String) : String :=
  match extensions_map base (pathExt path) with
  | some t => t
  | none => platformGuess path

/-! ### Request path resolution (spec-modelled, library code) -/

/-- `os.path.join(a, b)` for a single extra component (POSIX rules):
`b` absolute (first character a separator) resets, otherwise it is joined
with a separator unless `a` is empty or already ends in one. -/
def pjoin (a b : String) : String :=
  if b.data.headD ' ' = '/' then b
  else if a = "" ∨ a.endsWith "/" then a ++ b
  else a ++ "/" ++ b

/-- POSIX `normpath`: collapse `//`, `.` and (where possible) `..`
components. -/
def normpath (path : String) : String :=
  if path = "" then "."
  else
    let initialSlashes : Nat :=
      if path.startsWith "/" then
        if path.startsWith "//" ∧ ¬ path.startsWith "///" then 2 else 1
      else 0
    let newComps := (path.splitOn "/").foldl (fun acc comp =>
      if comp = "" ∨ comp = "." then acc
      else if comp ≠ ".." ∨ (initialSlashes = 0 ∧ acc = []) ∨ acc.getLast? = some ".." then
        acc ++ [comp]
      else if acc ≠ [] then acc.dropLast
      else acc) []
    let joined :=
      String.mk (List.replicate initialSlashes '/') ++ String.intercalate "/" newComps
    if joined = "" then "." else joined

/-- Modelled from the spec: the request-path resolution of the underlying
static file handler (library code, not under src/), which the spec calls
"standard static-file semantics ... refuse to serve paths outside the
root": drop the query and fragment, normalise, split on `/`, and join
under the served directory only those components that are plain names —
everything empty, `.`, `..`, or containing a separator is skipped.
(The handler URL-decodes before normalising; the model takes the already
decoded path as input.) -/
def translate_path (directory reqPath : String) : String :=
  let p := stripAfter "#" (stripAfter "?" reqPath)
  let words := ((normpath p).splitOn "/").filter (fun wd => wd ≠ "")
  words.foldl (fun path wd =>
    if ('/' ∈ wd.data) ∨ wd = "." ∨ wd = ".." then path else pjoin path wd) directory

/-- A plain path component: nonempty, not `.`, not `..`, and without a
separator.  A path reached from a root by joining such components only
can never leave the root. -/
def simpleComp (wd : String) : Prop :=
  wd ≠ "" ∧ wd ≠ "." ∧ wd ≠ ".." ∧ ('/' ∉ wd.data)

/-- The paths lying under `root`: `root` itself, and anything obtained
from it by joining plain components. -/
inductive Within (root : String) : String → Prop
  | base : Within root root
  | step (p c : String) : simpleComp c → Within root p → Within root (pjoin p c)

/-! ### LAN address discovery and SAN list (serve.py lines 43-70) -/

/-- The address parsed from a (stripped) `inet ` line of the interface
listing: second whitespace-separated field, up to the `/`
(`line.split()[1].split("/")[0]`). -/
def parseInetAddr (line : String) : String :=
  (((pySplitWs line).getD 1 "").splitOn "/").headD ""

/-- One iteration of the loop of `get_lan_ips` (serve.py lines 52-57):
strip the line; on an `inet ` line append the parsed address unless it is
already present. -/
def scanLine (ips : List String) (line : String) : List String :=
  if (line.trim).startsWith "inet " then
    let addr := parseInetAddr line.trim
    if addr ∈ ips then ips else ips ++ [addr]
  else ips

/-- `get_lan_ips` (serve.py lines 43-60).  `cmdOutput` is the result of
`subprocess.check_output(["ip", "-4", "addr", "show"], ...)`: `none`
models the caught `CalledProcessError`/`FileNotFoundError` (command
failed or unavailable), in which case the initial `["127.0.0.1"]` is
returned unchanged. -/
def get_lan_ips (cmdOutput : Option String) : List String :=
  match cmdOutput with
  | none => ["127.0.0.1"]
  | some out => (pySplitLines out).foldl scanLine ["127.0.0.1"]

/-- The addresses appearing on `inet ` lines of the command output, in
order, duplicates included — the "discovered" addresses. -/
def parsedAddrs : List String → List String
  | [] => []
  | line :: rest =>
      if (line.trim).startsWith "inet " then parseInetAddr line.trim :: parsedAddrs rest
      else parsedAddrs rest

/-- The discovered IPv4 addresses: the loopback address plus everything an
`inet ` line of the interface listing mentions. -/
def discoveredIps (cmdOutput : Option String) : List String :=
  match cmdOutput with
  | none => ["127.0.0.1"]
  | some out => "127.0.0.1" :: parsedAddrs (pySplitLines out)

/-- The SAN entry list of `generate_cert` (serve.py lines 67-69):
`DNS:localhost` followed by one `IP:` entry per element of
`get_lan_ips`. -/
def san_entries (cmdOutput : Option String) : List String :=
  "DNS:localhost" :: (get_lan_ips cmdOutput).map (fun ip => "IP:" ++ ip)

/-- The joined SAN string passed to openssl (serve.py line 70). -/
def sanString (cmdOutput : Option String) : String :=
  String.intercalate "," (san_entries cmdOutput)

/-! ### The world, events, and main (serve.py lines 63-145) -/

/-- The observable environment of one run: the filesystem facts `main`
consults and the behaviour of the external commands it shells out to.
`ipCmd` is the output of `ip -4 addr show` (`none` = failure or absence);
`opensslCert`/`opensslKey` are the PEM bytes the openssl invocation of
`generate_cert` would write to `certs/cert.pem` and `certs/key.pem`. -/
structure World where
  webDirExists : Bool
  certExists : Bool
  keyExists : Bool
  certBytes : String
  keyBytes : String
  ipCmd : Option String
  opensslCert : String
  opensslKey : String
  deriving DecidableEq

/-- Externally visible events of a run, in program order. -/
inductive Event where
  | msg (s : String)
  | sysExit (code : Nat)
  | valueErrorExit
  | chdir (dir : String)
  | bindSocket (host : String) (port : Int)
  | makeCertDir
  | runOpenssl (san : String)
  | loadCertChain (cert key : String)
  | wrapSocket
  | serveForever
  deriving DecidableEq

/-- The outcome of a run: the event trace and the final contents of the
two certificate files (`none` = the file does not exist). -/
structure RunResult where
  events : List Event
  certFile : Option String
  keyFile : Option String
  deriving DecidableEq

/-- Fixed paths (serve.py lines 26-29, 104), relative to the script
directory. -/
def CERT_DIR : String := "certs"

def CERT_FILE : String := CERT_DIR ++ "/cert.pem"

def KEY_FILE : String := CERT_DIR ++ "/key.pem"

def DEFAULT_PORT : Int := 8000

def webDirName : String := "zig-out"

/-- An apostrophe, kept out of string literals. -/
def sq : String := String.mk [Char.ofNat 39]

def errNotFoundMsg : String := "Error: Web build directory not found: " ++ webDirName

def buildHintMsg : String :=
  "Run " ++ sq ++ "zig build -Dtarget=wasm32-emscripten" ++ sq
    ++ " first to build the web version."

def usingExistingMsg : String := "Using existing certificate from " ++ CERT_DIR ++ "/"

def pressCtrlCMsg : String := "Press Ctrl+C to stop"

/-- Contents of `certs/cert.pem` at startup. -/
def initCertFile (w : World) : Option String :=
  if w.certExists then some w.certBytes else none

/-- Contents of `certs/key.pem` at startup. -/
def initKeyFile (w : World) : Option String :=
  if w.keyExists then some w.keyBytes else none

/-- The events of `generate_cert` (serve.py lines 63-96): create the
certificate directory, print, invoke openssl with the computed SAN,
print. -/
def genEvents (w : World) : List Event :=
  [Event.makeCertDir,
   Event.msg "Generating self-signed certificate...",
   Event.msg ("  SAN entries: " ++ sanString w.ipCmd),
   Event.runOpenssl (sanString w.ipCmd),
   Event.msg ("  Certificate written to " ++ CERT_DIR ++ "/")]

/-- The certificate branch of `main` (serve.py lines 117-120): when both
files exist, reuse them; otherwise run `generate_cert`, after which both
files hold the openssl outputs. -/
def runHttpsCert (w : World) : List Event × Option String × Option String :=
  if w.certExists && w.keyExists then
    ([Event.msg usingExistingMsg], initCertFile w, initKeyFile w)
  else
    (genEvents w, some w.opensslCert, some w.opensslKey)

/-- The banner lines of serve.py lines 130-131. -/
def bannerEvents (protocol : String) (port : Int) : List Event :=
  [Event.msg ("Serving web build from: " ++ webDirName),
   Event.msg ("Open " ++ protocol ++ "://localhost:" ++ toString port ++ " in your browser")]

/-- The extra HTTPS note lines of serve.py lines 132-139: one line per
non-loopback discovered address, then the certificate-warning note. -/
def httpsNoteEvents (w : World) (port : Int) : List Event :=
  (((get_lan_ips w.ipCmd).filter (fun ip => ip ≠ "127.0.0.1")).map
    (fun ip => Event.msg ("  or https://" ++ ip ++ ":" ++ toString port ++ " from other devices")))
  ++ [Event.msg "",
      Event.msg "NOTE: You will need to accept the self-signed certificate warning",
      Event.msg "in your browser on first visit."]

/-- The positional arguments (serve.py line 101): everything after the
program name except `--https` occurrences. -/
def parsedArgs (argv : List String) : List String :=
  (argv.drop 1).filter (fun a => a ≠ "--https")

/-- The port (serve.py line 102): the first positional argument parsed by
`int`, defaulting to 8000; `none` models the uncaught `ValueError`. -/
def portOf (argv : List String) : Option Int :=
  match parsedArgs argv with
  | [] => some DEFAULT_PORT
  | a :: _ => pyInt a

/-- `use_https` (serve.py line 100): whether `--https` occurs anywhere in
`sys.argv` — the program name included, as in the source. -/
def useHttpsOf (argv : List String) : Bool :=
  decide ("--https" ∈ argv)

/-- `main` (serve.py lines 99-145) as a function from the world and
`sys.argv` (program name first) to the run outcome.  Control flow follows
the source: parse arguments; if the web directory is missing, print two
messages and exit 1 without constructing the server; otherwise chdir,
bind, provision or reuse the certificate when HTTPS was requested, wrap
the socket, print the banner and notes, and enter the serve loop. -/
def serve_main (w : World) (argv : List String) : RunResult :=
  match portOf argv with
  | none => ⟨[Event.valueErrorExit], initCertFile w, initKeyFile w⟩
  | some port =>
    if w.webDirExists then
      if useHttpsOf argv then
        let c := runHttpsCert w
        ⟨[Event.chdir webDirName, Event.bindSocket "0.0.0.0" port]
           ++ c.1
           ++ [Event.loadCertChain CERT_FILE KEY_FILE, Event.wrapSocket]
           ++ bannerEvents "https" port
           ++ httpsNoteEvents w port
           ++ [Event.msg pressCtrlCMsg, Event.serveForever],
         c.2.1, c.2.2⟩
      else
        ⟨[Event.chdir webDirName, Event.bindSocket "0.0.0.0" port]
           ++ bannerEvents "http" port
           ++ [Event.msg pressCtrlCMsg, Event.serveForever],
         initCertFile w, initKeyFile w⟩
    else
      ⟨[Event.msg errNotFoundMsg, Event.msg buildHintMsg, Event.sysExit 1],
       initCertFile w, initKeyFile w⟩

end ServePy

namespace ServePy

/-! ### Path containment lemmas -/

theorem within_foldl (root : String) (ws : List String) (p : String)
    (hws : ∀ wd ∈ ws, wd ≠ "") (hp : Within root p) :
    Within root (ws.foldl (fun path wd =>
      if ('/' ∈ wd.data) ∨ wd = "." ∨ wd = ".." then path else pjoin path wd) p) := by
  induction ws generalizing p with
  | nil => exact hp
  | cons w tl ih =>
    simp only [List.foldl_cons]
    by_cases h : ('/' ∈ w.data) ∨ w = "." ∨ w = ".."
    · rw [if_pos h]
      exact ih p (fun x hx => hws x (List.mem_cons_of_mem _ hx)) hp
    · rw [if_neg h]
      push_neg at h
      exact ih _ (fun x hx => hws x (List.mem_cons_of_mem _ hx))
        (Within.step p w ⟨hws w (List.mem_cons_self _ _), h.2.1, h.2.2, h.1⟩ hp)

theorem within_extends (root p : String) (h : Within root p) : ∃ s, p = root ++ s := by
  induction h with
  | base => exact ⟨"", by simp⟩
  | step q c hc hq ih =>
    obtain ⟨s, rfl⟩ := ih
    have hne : c.data ≠ [] := by
      intro hnil
      apply hc.1
      cases c with
      | mk d =>
        have hd : d = [] := hnil
        subst hd
        rfl
    have hmem : c.data.headD ' ' ∈ c.data := by
      cases hd : c.data with
      | nil => exact absurd hd hne
      | cons a l => simp
    have hhead : ¬ (c.data.headD ' ' = '/') := fun hh => hc.2.2.2 (hh ▸ hmem)
    unfold pjoin
    rw [if_neg hhead]
    by_cases h2 : (root ++ s) = "" ∨ (root ++ s).endsWith "/"
    · rw [if_pos h2]
      exact ⟨s ++ c, by simp [String.append_assoc]⟩
    · rw [if_neg h2]
      exact ⟨s ++ "/" ++ c, by simp [String.append_assoc]⟩

/-- C1: every request is resolved to a path lying under the served
directory: the resolved path is obtained from the root by joining plain
components only (no `..`, no `.`, no separators), and is in particular a
textual extension of the root.  No request resolves to a file outside the
root. -/
theorem translate_path_never_escapes_root (directory reqPath : String) :
    Within directory (translate_path directory reqPath)
    ∧ ∃ s, translate_path directory reqPath = directory ++ s := by
  have hw : Within directory (translate_path directory reqPath) := by
    unfold translate_path
    refine within_foldl _ _ _ ?_ Within.base
    intro wd hwd
    have := List.of_mem_filter hwd
    simpa using this
  exact ⟨hw, within_extends _ _ hw⟩

/-! ### MIME lemmas -/

theorem pathExt_wasm (pre : String) : pathExt (pre ++ ".wasm") = ".wasm" := by
  unfold pathExt
  have h : (pre ++ ".wasm").data = pre.data ++ ['.', 'w', 'a', 's', 'm'] := by
    rw [String.data_append]
  rw [h, List.reverse_append]
  simp [extRev]

theorem pathExt_js (pre : String) : pathExt (pre ++ ".js") = ".js" := by
  unfold pathExt
  have h : (pre ++ ".js").data = pre.data ++ ['.', 'j', 's'] := by
    rw [String.data_append]
  rw [h, List.reverse_append]
  simp [extRev]

theorem pathExt_mjs (pre : String) : pathExt (pre ++ ".mjs") = ".mjs" := by
  unfold pathExt
  have h : (pre ++ ".mjs").data = pre.data ++ ['.', 'm', 'j', 's'] := by
    rw [String.data_append]
  rw [h, List.reverse_append]
  simp [extRev]

/-- C2: a path ending in `.wasm` is served as `application/wasm`, and one
ending in `.js` or `.mjs` as `application/javascript`, whatever the
inherited platform mapping `base` and the platform fallback
`platformGuess` say. -/
theorem mime_overrides_platform_defaults (base : String → Option String)
    (platformGuess : String → String) (pre : String) :
    guess_type base platformGuess (pre ++ ".wasm") = "application/wasm"
    ∧ guess_type base platformGuess (pre ++ ".js") = "application/javascript"
    ∧ guess_type base platformGuess (pre ++ ".mjs") = "application/javascript" := by
  refine ⟨?_, ?_, ?_⟩ <;>
    simp [guess_type, extensions_map, pathExt_wasm, pathExt_js, pathExt_mjs]

/-! ### SAN list lemmas -/

theorem mem_scanLine (ips : List String) (line x : String) :
    x ∈ scanLine ips line ↔
      x ∈ ips ∨ ((line.trim).startsWith "inet " = true ∧ x = parseInetAddr line.trim) := by
  unfold scanLine
  by_cases h : (line.trim).startsWith "inet " = true
  · by_cases hm : parseInetAddr line.trim ∈ ips
    · simp only [h, if_true, if_pos hm]
      constructor
      · exact Or.inl
      · rintro (hx | ⟨-, rfl⟩)
        · exact hx
        · exact hm
    · simp [h, hm, List.mem_append]
  · simp [h]

theorem parsedAddrs_cons (l : String) (tl : List String) :
    parsedAddrs (l :: tl) =
      if (l.trim).startsWith "inet " then parseInetAddr l.trim :: parsedAddrs tl
      else parsedAddrs tl := rfl

theorem mem_foldl_scanLine (lines : List String) (ips : List String) (x : String) :
    x ∈ lines.foldl scanLine ips ↔ x ∈ ips ∨ x ∈ parsedAddrs lines := by
  induction lines generalizing ips with
  | nil => simp [parsedAddrs]
  | cons l tl ih =>
    rw [List.foldl_cons, ih, mem_scanLine, parsedAddrs_cons]
    by_cases h : (l.trim).startsWith "inet " = true
    · rw [if_pos h, List.mem_cons]
      constructor
      · rintro ((hx | ⟨-, rfl⟩) | hx)
        · exact Or.inl hx
        · exact Or.inr (Or.inl rfl)
        · exact Or.inr (Or.inr hx)
      · rintro (hx | rfl | hx)
        · exact Or.inl (Or.inl hx)
        · exact Or.inl (Or.inr ⟨h, rfl⟩)
        · exact Or.inr hx
    · rw [if_neg h]
      constructor
      · rintro ((hx | ⟨hc, -⟩) | hx)
        · exact Or.inl hx
        · exact absurd hc h
        · exact Or.inr hx
      · rintro (hx | hx)
        · exact Or.inl (Or.inl hx)
        · exact Or.inr hx

theorem nodup_foldl_scanLine (lines : List String) (ips : List String) (h : ips.Nodup) :
    (lines.foldl scanLine ips).Nodup := by
  induction lines generalizing ips with
  | nil => exact h
  | cons l tl ih =>
    rw [List.foldl_cons]
    apply ih
    unfold scanLine
    by_cases hs : (l.trim).startsWith "inet " = true
    · by_cases hm : parseInetAddr l.trim ∈ ips
      · simpa [hs, hm] using h
      · simp only [hs, if_true, if_neg hm]
        rw [List.nodup_append]
        exact ⟨h, List.nodup_singleton _, by simpa using hm⟩
    · simpa [hs] using h

theorem get_lan_ips_nodup (out : Option String) : (get_lan_ips out).Nodup := by
  cases out with
  | none => simp [get_lan_ips]
  | some o => exact nodup_foldl_scanLine _ _ (by simp)

theorem mem_get_lan_ips (out : Option String) (x : String) :
    x ∈ get_lan_ips out ↔ x ∈ discoveredIps out := by
  cases out with
  | none => simp [get_lan_ips, discoveredIps]
  | some o => simp [get_lan_ips, discoveredIps, mem_foldl_scanLine]

theorem append_left_cancel_str (p a b : String) (h : p ++ a = p ++ b) : a = b := by
  have hd : (p ++ a).data = (p ++ b).data := congrArg String.data h
  rw [String.data_append, String.data_append] at hd
  have hl := List.append_cancel_left hd
  cases a
  cases b
  exact congrArg String.mk hl

theorem dns_ne_ip (a : String) : "DNS:localhost" ≠ "IP:" ++ a := by
  intro h
  have hd : (['D', 'N', 'S', ':', 'l', 'o', 'c', 'a', 'l', 'h', 'o', 's', 't'] : List Char)
      = ['I', 'P', ':'] ++ a.data := by
    have hx := congrArg String.data h
    rw [String.data_append] at hx
    exact hx
  simp at hd

theorem loopback_mem_discovered (out : Option String) : "127.0.0.1" ∈ discoveredIps out := by
  cases out <;> simp [discoveredIps]

/-- C6: the SAN entry list is `DNS:localhost` followed by the `IP:`
entries of a duplicate-free list holding exactly the discovered IPv4
addresses; the whole list has no duplicates and always contains
`DNS:localhost` and `IP:127.0.0.1`. -/
theorem san_entries_complete_and_nodup (out : Option String) :
    (∃ ips : List String, san_entries out = "DNS:localhost" :: ips.map (fun ip => "IP:" ++ ip)
        ∧ ips.Nodup ∧ ∀ a, a ∈ ips ↔ a ∈ discoveredIps out)
    ∧ (san_entries out).Nodup
    ∧ "DNS:localhost" ∈ san_entries out
    ∧ "IP:" ++ "127.0.0.1" ∈ san_entries out
    ∧ (∀ a, "IP:" ++ a ∈ san_entries out ↔ a ∈ discoveredIps out) := by
  have hinj : Function.Injective (fun ip => "IP:" ++ ip) := fun a b hab =>
    append_left_cancel_str "IP:" a b hab
  have hnodup : (san_entries out).Nodup := by
    unfold san_entries
    rw [List.nodup_cons]
    constructor
    · intro hmem
      obtain ⟨ip, -, hip⟩ := List.mem_map.mp hmem
      exact dns_ne_ip ip hip.symm
    · exact (get_lan_ips_nodup out).map hinj
  have hiff : ∀ a, "IP:" ++ a ∈ san_entries out ↔ a ∈ discoveredIps out := by
    intro a
    unfold san_entries
    rw [List.mem_cons]
    constructor
    · rintro (hx | hx)
      · exact absurd hx.symm (dns_ne_ip a)
      · obtain ⟨ip, hip, he⟩ := List.mem_map.mp hx
        rw [← mem_get_lan_ips]
        rwa [hinj he] at hip
    · intro hx
      exact Or.inr (List.mem_map.mpr ⟨a, (mem_get_lan_ips out a).mpr hx, rfl⟩)
  refine ⟨⟨get_lan_ips out, rfl, get_lan_ips_nodup out, fun a => mem_get_lan_ips out a⟩,
    hnodup, List.mem_cons_self _ _, (hiff "127.0.0.1").mpr (loopback_mem_discovered out), hiff⟩

/-- The world for a run where LAN discovery fails: web directory present,
no certificate files, `ip -4 addr show` unavailable. -/
def wNoIp : World :=
  ⟨true, false, false, "", "", none, "FRESHCERT", "FRESHKEY"⟩

/-- C7: when the interface-listing command fails or is unavailable,
`get_lan_ips` returns just the loopback address, and an HTTPS run still
provisions the certificate (openssl runs with loopback-only SAN coverage)
and reaches the serve loop. -/
theorem lan_discovery_fallback :
    get_lan_ips none = ["127.0.0.1"]
    ∧ sanString none = "DNS:localhost,IP:127.0.0.1"
    ∧ Event.runOpenssl "DNS:localhost,IP:127.0.0.1"
        ∈ (serve_main wNoIp ["serve.py", "--https"]).events
    ∧ Event.serveForever ∈ (serve_main wNoIp ["serve.py", "--https"]).events
    ∧ (serve_main wNoIp ["serve.py", "--https"]).certFile = some "FRESHCERT"
    ∧ (serve_main wNoIp ["serve.py", "--https"]).keyFile = some "FRESHKEY" := by
  decide

/-! ### Shape of the main run -/

theorem serve_main_https (w : World) (argv : List String) (port : Int)
    (hport : portOf argv = some port) (hweb : w.webDirExists = true)
    (hhttps : useHttpsOf argv = true) :
    serve_main w argv =
      ⟨[Event.chdir webDirName, Event.bindSocket "0.0.0.0" port]
         ++ (runHttpsCert w).1
         ++ [Event.loadCertChain CERT_FILE KEY_FILE, Event.wrapSocket]
         ++ bannerEvents "https" port
         ++ httpsNoteEvents w port
         ++ [Event.msg pressCtrlCMsg, Event.serveForever],
       (runHttpsCert w).2.1, (runHttpsCert w).2.2⟩ := by
  unfold serve_main
  rw [hport]
  simp [hweb, hhttps]

theorem serve_main_http (w : World) (argv : List String) (port : Int)
    (hport : portOf argv = some port) (hweb : w.webDirExists = true)
    (hhttps : useHttpsOf argv = false) :
    serve_main w argv =
      ⟨[Event.chdir webDirName, Event.bindSocket "0.0.0.0" port]
         ++ bannerEvents "http" port
         ++ [Event.msg pressCtrlCMsg, Event.serveForever],
       initCertFile w, initKeyFile w⟩ := by
  unfold serve_main
  rw [hport]
  simp [hweb, hhttps]

theorem serve_main_nodir (w : World) (argv : List String) (port : Int)
    (hport : portOf argv = some port) (hweb : w.webDirExists = false) :
    serve_main w argv =
      ⟨[Event.msg errNotFoundMsg, Event.msg buildHintMsg, Event.sysExit 1],
       initCertFile w, initKeyFile w⟩ := by
  unfold serve_main
  rw [hport]
  simp [hweb]

theorem runHttpsCert_generating (w : World) (hmiss : w.certExists = false ∨ w.keyExists = false) :
    runHttpsCert w = (genEvents w, some w.opensslCert, some w.opensslKey) := by
  have hcc : (w.certExists && w.keyExists) = false := by
    rcases hmiss with h | h <;> simp [h]
  unfold runHttpsCert
  rw [hcc]
  simp

theorem runHttpsCert_reusing (w : World) (hc : w.certExists = true) (hk : w.keyExists = true) :
    runHttpsCert w = ([Event.msg usingExistingMsg], some w.certBytes, some w.keyBytes) := by
  unfold runHttpsCert
  rw [hc, hk]
  simp [initCertFile, initKeyFile, hc, hk]

/-! ### Certificate provisioning claims -/

/-- C3: under `--https`, when the certificate bundle is not complete at
the fixed paths, the run writes the openssl outputs to both
`certs/cert.pem` and `certs/key.pem`, and the openssl invocation happens
strictly before the serve loop starts. -/
theorem https_missing_bundle_generated_before_serving (w : World) (argv : List String)
    (port : Int)
    (hport : portOf argv = some port) (hhttps : useHttpsOf argv = true)
    (hweb : w.webDirExists = true)
    (hmiss : w.certExists = false ∨ w.keyExists = false) :
    (serve_main w argv).certFile = some w.opensslCert
    ∧ (serve_main w argv).keyFile = some w.opensslKey
    ∧ ∃ pre post, (serve_main w argv).events
        = pre ++ Event.runOpenssl (sanString w.ipCmd) :: post
        ∧ Event.serveForever ∈ post := by
  rw [serve_main_https w argv port hport hweb hhttps, runHttpsCert_generating w hmiss]
  refine ⟨rfl, rfl,
    [Event.chdir webDirName, Event.bindSocket "0.0.0.0" port, Event.makeCertDir,
     Event.msg "Generating self-signed certificate...",
     Event.msg ("  SAN entries: " ++ sanString w.ipCmd)],
    [Event.msg ("  Certificate written to " ++ CERT_DIR ++ "/"),
     Event.loadCertChain CERT_FILE KEY_FILE, Event.wrapSocket]
      ++ bannerEvents "https" port ++ httpsNoteEvents w port
      ++ [Event.msg pressCtrlCMsg, Event.serveForever], ?_, ?_⟩
  · simp [genEvents]
  · simp [List.mem_append]

/-- World for the C3 witness: no certificate files, one LAN address. -/
def wC3 : World :=
  ⟨true, false, false, "", "", some "    inet 10.0.0.7/24 brd 10.0.0.255", "PEMCERT", "PEMKEY"⟩

theorem https_missing_bundle_witness :
    (serve_main wC3 ["serve.py", "--https", "8443"]).certFile = some "PEMCERT"
    ∧ (serve_main wC3 ["serve.py", "--https", "8443"]).keyFile = some "PEMKEY"
    ∧ ∃ pre post, (serve_main wC3 ["serve.py", "--https", "8443"]).events
        = pre ++ Event.runOpenssl (sanString wC3.ipCmd) :: post
        ∧ Event.serveForever ∈ post :=
  https_missing_bundle_generated_before_serving wC3 ["serve.py", "--https", "8443"] 8443
    (by decide) (by decide) (by decide) (Or.inl (by decide))

/-- C4: under `--https`, when both certificate files exist, openssl is
never invoked, the reuse message is printed, and both files keep their
initial byte content. -/
theorem existing_bundle_reused_unchanged (w : World) (argv : List String) (port : Int)
    (hport : portOf argv = some port) (hhttps : useHttpsOf argv = true)
    (hweb : w.webDirExists = true)
    (hc : w.certExists = true) (hk : w.keyExists = true) :
    (serve_main w argv).certFile = some w.certBytes
    ∧ (serve_main w argv).keyFile = some w.keyBytes
    ∧ (serve_main w argv).certFile = initCertFile w
    ∧ (serve_main w argv).keyFile = initKeyFile w
    ∧ (∀ s, Event.runOpenssl s ∉ (serve_main w argv).events)
    ∧ Event.msg usingExistingMsg ∈ (serve_main w argv).events := by
  rw [serve_main_https w argv port hport hweb hhttps, runHttpsCert_reusing w hc hk]
  refine ⟨rfl, rfl, by simp [initCertFile, hc], by simp [initKeyFile, hk], ?_, ?_⟩
  · intro s
    simp [bannerEvents, httpsNoteEvents, List.mem_append]
  · simp

/-- World for the C4 witness: both certificate files already present. -/
def wC4 : World :=
  ⟨true, true, true, "OLDCERT", "OLDKEY", none, "WOULDBECERT", "WOULDBEKEY"⟩

theorem existing_bundle_reused_witness :
    (serve_main wC4 ["serve.py", "--https"]).certFile = some "OLDCERT"
    ∧ (serve_main wC4 ["serve.py", "--https"]).keyFile = some "OLDKEY"
    ∧ (serve_main wC4 ["serve.py", "--https"]).certFile = initCertFile wC4
    ∧ (serve_main wC4 ["serve.py", "--https"]).keyFile = initKeyFile wC4
    ∧ (∀ s, Event.runOpenssl s ∉ (serve_main wC4 ["serve.py", "--https"]).events)
    ∧ Event.msg usingExistingMsg ∈ (serve_main wC4 ["serve.py", "--https"]).events :=
  existing_bundle_reused_unchanged wC4 ["serve.py", "--https"] 8000
    (by decide) (by decide) (by decide) (by decide) (by decide)

/-- C5: when the web build directory is missing, the run prints the
error message and the remediation message naming the zig build step,
exits with status 1, and never binds a socket or reaches the serve
loop. -/
theorem missing_webdir_fatal (w : World) (argv : List String) (port : Int)
    (hport : portOf argv = some port) (hweb : w.webDirExists = false) :
    (serve_main w argv).events
      = [Event.msg errNotFoundMsg, Event.msg buildHintMsg, Event.sysExit 1]
    ∧ (∀ host p, Event.bindSocket host p ∉ (serve_main w argv).events)
    ∧ Event.serveForever ∉ (serve_main w argv).events
    ∧ Event.sysExit 1 ∈ (serve_main w argv).events ∧ (1 : Nat) ≠ 0 := by
  rw [serve_main_nodir w argv port hport hweb]
  refine ⟨rfl, ?_, by simp, by simp, by decide⟩
  intro host p
  simp

/-- World for the C5 witness: web build directory absent. -/
def wC5 : World :=
  ⟨false, false, false, "", "", none, "", ""⟩

theorem missing_webdir_fatal_witness :
    (serve_main wC5 ["serve.py"]).events
      = [Event.msg errNotFoundMsg, Event.msg buildHintMsg, Event.sysExit 1]
    ∧ (∀ host p, Event.bindSocket host p ∉ (serve_main wC5 ["serve.py"]).events)
    ∧ Event.serveForever ∉ (serve_main wC5 ["serve.py"]).events
    ∧ Event.sysExit 1 ∈ (serve_main wC5 ["serve.py"]).events ∧ (1 : Nat) ≠ 0 :=
  missing_webdir_fatal wC5 ["serve.py"] 8000 (by decide) (by decide)

/-- C10: under `--https`, when exactly one of the two certificate files
exists, generation still runs (openssl is invoked) and both files end up
holding the freshly generated openssl outputs — the surviving file is
overwritten rather than reused. -/
theorem partial_bundle_regenerated (w : World) (argv : List String) (port : Int)
    (hport : portOf argv = some port) (hhttps : useHttpsOf argv = true)
    (hweb : w.webDirExists = true)
    (hone : (w.certExists = true ∧ w.keyExists = false)
        ∨ (w.certExists = false ∧ w.keyExists = true)) :
    (serve_main w argv).certFile = some w.opensslCert
    ∧ (serve_main w argv).keyFile = some w.opensslKey
    ∧ Event.runOpenssl (sanString w.ipCmd) ∈ (serve_main w argv).events := by
  have hmiss : w.certExists = false ∨ w.keyExists = false := by
    rcases hone with ⟨-, h⟩ | ⟨h, -⟩
    · exact Or.inr h
    · exact Or.inl h
  rw [serve_main_https w argv port hport hweb hhttps, runHttpsCert_generating w hmiss]
  refine ⟨rfl, rfl, ?_⟩
  simp [genEvents, List.mem_append]

/-- World for the C10 witness: only `certs/cert.pem` survives. -/
def wC10 : World :=
  ⟨true, true, false, "SURVIVINGCERT", "", none, "REGENCERT", "REGENKEY"⟩

theorem partial_bundle_regenerated_witness :
    (serve_main wC10 ["serve.py", "--https"]).certFile = some "REGENCERT"
    ∧ (serve_main wC10 ["serve.py", "--https"]).keyFile = some "REGENKEY"
    ∧ Event.runOpenssl (sanString wC10.ipCmd)
        ∈ (serve_main wC10 ["serve.py", "--https"]).events :=
  partial_bundle_regenerated wC10 ["serve.py", "--https"] 8000
    (by decide) (by decide) (by decide) (Or.inl (by decide))

/-! ### CLI parsing claims -/

/-- C8: `--https` and the positional port commute: `use_https` holds
exactly when `--https` occurs among the arguments after the program name,
the port is the `int` value of the first remaining positional argument
(8000 when there is none), and swapping the two arguments changes
nothing. -/
theorem cli_flag_and_port_order_independent (prog : String) (rest : List String)
    (hprog : prog ≠ "--https") :
    (useHttpsOf (prog :: rest) = true ↔ "--https" ∈ rest)
    ∧ (rest.filter (fun a => a ≠ "--https") = [] → portOf (prog :: rest) = some 8000)
    ∧ (∀ a tl n, rest.filter (fun a => a ≠ "--https") = a :: tl → pyInt a = some n →
        portOf (prog :: rest) = some n)
    ∧ (∀ p, portOf (prog :: [p, "--https"]) = portOf (prog :: ["--https", p])
        ∧ useHttpsOf (prog :: [p, "--https"]) = useHttpsOf (prog :: ["--https", p])) := by
  have h1 : ¬ ("--https" = prog) := fun hx => hprog hx.symm
  refine ⟨?_, ?_, ?_, ?_⟩
  · simp [useHttpsOf, List.mem_cons, h1]
  · intro hfil
    unfold portOf parsedArgs
    simp only [List.drop_succ_cons, List.drop_zero]
    rw [hfil]
    rfl
  · intro a tl n hfil hint
    unfold portOf parsedArgs
    simp only [List.drop_succ_cons, List.drop_zero]
    rw [hfil]
    exact hint
  · intro p
    constructor
    · by_cases hp : p = "--https"
      · subst hp
        rfl
      · unfold portOf parsedArgs
        simp [hp]
    · simp [useHttpsOf, List.mem_cons]

theorem cli_flag_and_port_order_witness :
    (useHttpsOf ["serve.py", "9443", "--https"] = true ↔ "--https" ∈ ["9443", "--https"])
    ∧ (["9443", "--https"].filter (fun a => a ≠ "--https") = []
        → portOf ["serve.py", "9443", "--https"] = some 8000)
    ∧ (∀ a tl n, ["9443", "--https"].filter (fun a => a ≠ "--https") = a :: tl
        → pyInt a = some n → portOf ["serve.py", "9443", "--https"] = some n)
    ∧ (∀ p, portOf ("serve.py" :: [p, "--https"]) = portOf ("serve.py" :: ["--https", p])
        ∧ useHttpsOf ("serve.py" :: [p, "--https"])
            = useHttpsOf ("serve.py" :: ["--https", p])) :=
  cli_flag_and_port_order_independent "serve.py" ["9443", "--https"] (by decide)

/-! ### Port range claim -/

/-- World for the C9 counterexample and witness. -/
def wC9 : World :=
  ⟨true, false, false, "", "", none, "C9CERT", "C9KEY"⟩

/-- C9 counterexample: invoked with positional argument `0`, the program
accepts port 0 — outside 1–65535 — and still proceeds to the socket bind
with it.  No range validation exists in the code. -/
theorem port_range_counterexample :
    portOf ["serve.py", "0"] = some 0
    ∧ Event.bindSocket "0.0.0.0" 0 ∈ (serve_main wC9 ["serve.py", "0"]).events
    ∧ ¬ ((1 : Int) ≤ 0) := by
  decide

/-- C9 (amended): the port defaults to 8000 and is otherwise the parsed
integer value of the positional argument, used without any range check:
whatever integer parses — in or out of 1–65535 — is the port passed to
the socket bind. -/
theorem port_used_without_range_check (w : World) (argv : List String) (port : Int)
    (hweb : w.webDirExists = true) (hport : portOf argv = some port) :
    Event.bindSocket "0.0.0.0" port ∈ (serve_main w argv).events
    ∧ ∀ prog, portOf [prog] = some 8000 := by
  constructor
  · by_cases hh : useHttpsOf argv = true
    · rw [serve_main_https w argv port hport hweb hh]
      simp
    · rw [serve_main_http w argv port hport hweb (by simpa using hh)]
      simp
  · intro prog
    rfl

theorem port_used_without_range_check_witness :
    Event.bindSocket "0.0.0.0" 70000 ∈ (serve_main wC9 ["serve.py", "70000"]).events
    ∧ ∀ prog, portOf [prog] = some 8000 :=
  port_used_without_range_check wC9 ["serve.py", "70000"] 70000 (by decide) (by decide)

end ServePy
